import Mathlib

/-!
Verification of the movement/scoring client service of the tichu-tournament
repository (`src/web/src/movements/movement-service.js`).

The service manipulates:
* a movement store caching `Hand` objects keyed by
  `(tournamentId, nsPair, ewPair, handNo)`;
* a tournament-status cache partitioning each round's hands into
  `scoredHands` / `unscoredHands` buckets, kept sorted by `(handNo, tableNo)`;
* an in-flight promise cache deduplicating concurrent movement fetches.

JavaScript values arriving from the server are modelled by the `Json`
inductive below; JS numbers are modelled by `ℤ` (every number this service
consumes or produces — hand, pair and round numbers, scores, actors, status
codes — is an integer per the API contract, so floating-point behaviour plays
no role in any verified property, and the `Math.floor(x) !== x` integrality
guards of the source are identically false over this model).  Fallible
parsing routines are modelled in the `Except String` monad, a thrown `Error`
being `Except.error` with the same message.
-/

/-- A JavaScript value received from (or sent to) the server. `none` at an
object key models an absent property (JS `undefined`); `Json.null` models an
explicit JSON `null`. -/
inductive Json where
  | null
  | bool (b : Bool)
  | num (n : ℤ)
  | str (s : String)
  | arr (elems : List Json)
  | obj (fields : List (String × Json))

/-- Property lookup `value[key]` on a JS object; `none` when the receiver is
not an object or the key is absent. -/
def jsonGet (v : Json) (key : String) : Option Json :=
  match v with
  | .obj fields => fields.lookup key
  | _ => none

/-- The type name `ServiceHelpers.assertType` computes for a non-null value:
`Array.isArray(value) ? "array" : typeof value`.  (`typeof null` is handled
separately before this is consulted.) -/
def jsTypeOf : Json → String
  | .null => "object"
  | .bool _ => "boolean"
  | .num _ => "number"
  | .str _ => "string"
  | .arr _ => "array"
  | .obj _ => "object"

/-- Splits a type-name string on `"|"` (the separator `assertType` honours);
structural so that concrete runs reduce inside the kernel. -/
def splitOnPipeAux : List Char → List Char → List String
  | [], acc => [String.mk acc.reverse]
  | c :: rest, acc =>
      if c = '|' then String.mk acc.reverse :: splitOnPipeAux rest []
      else splitOnPipeAux rest (c :: acc)

/-- The `type.split("|")` of `ServiceHelpers.assertType`. -/
def splitOnPipe (s : String) : List String :=
  splitOnPipeAux s.data []

/-- Modelled from the spec: `ServiceHelpers.assertType(context, value, type,
valueOptional)` lives in a helper module that is not among the sources.  Every
call site in `movement-service.js` relies on the documented behaviour: a
`null`/`undefined` value yields `null` when the optional flag is set and throws
otherwise; a present value is returned when its JS type is listed in the
`|`-separated `type` string (arrays distinguished from plain objects) and
otherwise an error is thrown. -/
def assertType (context : String) (value : Option Json) (expectedType : String)
    (valueOptional : Bool) : Except String (Option Json) :=
  match value with
  | none => if valueOptional then .ok none else .error (context ++ " was not set")
  | some .null => if valueOptional then .ok none else .error (context ++ " was not set")
  | some v =>
      if (splitOnPipe expectedType).contains (jsTypeOf v) then .ok (some v)
      else .error (context ++ " was not a " ++ expectedType)

/-- A JS number-or-string score value (`ns_score` / `ew_score` accept either a
raw integer or one of the symbolic AVG tokens, sent as a string). -/
inductive ScoreValue where
  | num (n : ℤ)
  | str (s : String)
deriving DecidableEq, Repr

/-- Destructures `assertType(ctx, v, "number")`. -/
def asNumber (context : String) (value : Option Json) : Except String ℤ := do
  match ← assertType context value "number" false with
  | some (.num n) => pure n
  | _ => .error (context ++ " was not a number")

/-- Destructures `assertType(ctx, v, "string")`. -/
def asString (context : String) (value : Option Json) : Except String String := do
  match ← assertType context value "string" false with
  | some (.str s) => pure s
  | _ => .error (context ++ " was not a string")

/-- Destructures `assertType(ctx, v, "string", true)`. -/
def asStringOpt (context : String) (value : Option Json) :
    Except String (Option String) := do
  match ← assertType context value "string" true with
  | some (.str s) => pure (some s)
  | some _ => .error (context ++ " was not a string")
  | none => pure none

/-- Destructures `assertType(ctx, v, "object")`. -/
def asObject (context : String) (value : Option Json) :
    Except String (List (String × Json)) := do
  match ← assertType context value "object" false with
  | some (.obj fields) => pure fields
  | _ => .error (context ++ " was not a object")

/-- Destructures `assertType(ctx, v, "object", true)`. -/
def asObjectOpt (context : String) (value : Option Json) :
    Except String (Option (List (String × Json))) := do
  match ← assertType context value "object" true with
  | some (.obj fields) => pure (some fields)
  | some _ => .error (context ++ " was not a object")
  | none => pure none

/-- Destructures `assertType(ctx, v, "array")`. -/
def asArray (context : String) (value : Option Json) :
    Except String (List Json) := do
  match ← assertType context value "array" false with
  | some (.arr elems) => pure elems
  | _ => .error (context ++ " was not a array")

/-- Destructures `!!assertType(ctx, v, "boolean")`. -/
def asBoolean (context : String) (value : Option Json) : Except String Bool := do
  match ← assertType context value "boolean" false with
  | some (.bool b) => pure b
  | _ => .error (context ++ " was not a boolean")

/-- Destructures `assertType(ctx, v, "number|string")`. -/
def asNumOrStr (context : String) (value : Option Json) :
    Except String ScoreValue := do
  match ← assertType context value "number|string" false with
  | some (.num n) => pure (.num n)
  | some (.str s) => pure (.str s)
  | _ => .error (context ++ " was not a number|string")

/-- Modelled from the spec: the seat identifiers of `tichu.Position` (the
`tichu` data-model module is not among the sources).  The per-seat call
entries may exist for `north`, `east`, `west`, `south` (api.md). -/
def tichuPositions : List String := ["north", "east", "west", "south"]

/-- Modelled from the spec: `tichu.isValidCall` — a call entry is one of
`""` (no call), `"T"` (Tichu) or `"GT"` (Grand Tichu) (api.md). -/
def isValidCall (call : String) : Bool :=
  call = "" || call = "T" || call = "GT"

/-- Modelled from the spec: the `tichu.PairPosition` side tokens — `position`
is a "two character string starting with the table number" and ending in the
side, `N` (north/south) or `E` (east/west) (api.md). -/
def PairPosition.northSouth : String := "N"

/-- Modelled from the spec: the east/west side token. -/
def PairPosition.eastWest : String := "E"

/-- Modelled from the spec: `tichu.isValidPairPosition`, lifted to the
JS-undefined case: an unset value is not a valid side. -/
def isValidPairPositionOpt : Option String → Bool
  | some p => p = PairPosition.northSouth || p = PairPosition.eastWest
  | none => false

/-- One per-seat call entry `{side, call}` of a `tichu.HandScore`. -/
structure CallEntry where
  side : String
  call : String
deriving DecidableEq, Repr

/-- Modelled from the spec: `tichu.HandScore` — per-seat calls, the two score
values and free-text notes. -/
structure HandScore where
  calls : List CallEntry
  northSouthScore : ScoreValue
  eastWestScore : ScoreValue
  notes : Option String
deriving DecidableEq, Repr

/-- Parses one seat's call entry: the body of the `Object.keys(tichu.Position)
.map(...)` callback in `_parseHandScore`.  Returns `none` for the entries the
subsequent `.filter` drops (absent, `null`, or empty-string calls). -/
def parseCallForPosition (handContext : String) (callData : Json)
    (position : String) : Except String (Option CallEntry) := do
  match ← assertType (handContext ++ " " ++ position ++ " call")
      (jsonGet callData position) "string" true with
  | none => pure none
  | some (.str call) =>
      if call = "" then pure none
      else if !isValidCall call then
        .error (handContext ++ " " ++ position ++ " call was not a valid call")
      else pure (some ⟨position, call⟩)
  | some _ =>
      .error (handContext ++ " " ++ position ++ " call was not a string")

/-- The body of `_parseHandScore` after the early `return null`: parses a
present (non-null) score object. -/
def parseHandScoreObj (handContext : String) (scoreObj : Json) :
    Except String HandScore := do
  let callData? ← assertType (handContext ++ " calls") (jsonGet scoreObj "calls")
      "object" true
  let calls ← match callData? with
    | some callData => do
        let entries ← tichuPositions.mapM (parseCallForPosition handContext callData)
        pure (entries.filterMap id)
    | none => pure ([] : List CallEntry)
  let nsScore ← asNumOrStr (handContext ++ " north/south score")
      (jsonGet scoreObj "ns_score")
  let ewScore ← asNumOrStr (handContext ++ " east/west score")
      (jsonGet scoreObj "ew_score")
  let notes? ← asStringOpt (handContext ++ " scoring notes")
      (jsonGet scoreObj "notes")
  -- `assertType(...) || null` maps the (falsy) empty string to null.
  let notes : Option String :=
    match notes? with
    | some s => if s = "" then none else some s
    | none => none
  pure { calls := calls, northSouthScore := nsScore, eastWestScore := ewScore,
         notes := notes }

/-- `_parseHandScore(handContext, scoreData)`: `null`/`undefined` score data
yields `null` (the unscored-hand representation); otherwise the object is
parsed into a `HandScore`. -/
def parseHandScore (handContext : String) (scoreData : Option Json) :
    Except String (Option HandScore) := do
  match ← assertType (handContext ++ " score") scoreData "object" true with
  | none => pure none
  | some scoreObj => do
      let score ← parseHandScoreObj handContext scoreObj
      pure (some score)

/-- Modelled from the spec: a `Player{name, email}` entry of a pair. -/
structure Player where
  name : Option String
  email : Option String
deriving DecidableEq, Repr

/-- Modelled from the spec: `tichu.TournamentPair` — a pair number together
with its player entries; `new tichu.TournamentPair(n)` starts with no
players and `setPlayers` replaces the list. -/
structure TournamentPair where
  pairNo : ℤ
  players : List Player
deriving DecidableEq, Repr

/-- The key of the movement store's hand cache:
`(tournamentId, nsPair, ewPair, handNo)`. -/
structure HandKey where
  tournamentId : String
  nsPair : ℤ
  ewPair : ℤ
  handNo : ℤ
deriving DecidableEq, Repr

/-- Modelled from the spec: `tichu.Hand` — the two pairs, the hand number and
the optional recorded score (`null` when unscored). -/
structure Hand where
  northSouthPair : TournamentPair
  eastWestPair : TournamentPair
  handNo : ℤ
  score : Option HandScore
deriving DecidableEq, Repr

/-- Keyed lookup in the hand store. -/
def lookupHand : List (HandKey × Hand) → HandKey → Option Hand
  | [], _ => none
  | kv :: rest, key => if kv.1 = key then some kv.2 else lookupHand rest key

/-- Modelled from the spec: `TichuMovementStore.getOrCreateHand` (the store
module is not among the sources) — returns the cached hand for the key, or
caches and returns a fresh unscored hand for it. -/
def getOrCreateHand (hands : List (HandKey × Hand)) (key : HandKey) :
    Hand × List (HandKey × Hand) :=
  match lookupHand hands key with
  | some hand => (hand, hands)
  | none =>
      let hand : Hand :=
        { northSouthPair := ⟨key.nsPair, []⟩, eastWestPair := ⟨key.ewPair, []⟩,
          handNo := key.handNo, score := none }
      (hand, hands ++ [(key, hand)])

/-- `getOrCreateHand` for its store effect only. -/
def ensureHand (hands : List (HandKey × Hand)) (key : HandKey) :
    List (HandKey × Hand) :=
  (getOrCreateHand hands key).2

/-- The assignment `getOrCreateHand(...).score = s`, acting on a store in
which the key is already present. -/
def assignScore (hands : List (HandKey × Hand)) (key : HandKey)
    (score : Option HandScore) : List (HandKey × Hand) :=
  hands.map fun kv =>
    if kv.1 = key then (kv.1, { kv.2 with score := score }) else kv

/-- Modelled from the spec: `tichu.HandIdentifier` — a scored/unscored bucket
entry identifying one scheduled hand by hand number, the two pairs, and its
table. -/
structure HandIdentifier where
  handNo : ℤ
  northSouthPair : TournamentPair
  eastWestPair : TournamentPair
  tableNo : ℤ
deriving DecidableEq, Repr

/-- The comparator passed to `to_hands.sort` in `_changeHandStatus`:
primary key `handNo`, tie-break `tableNo`. -/
def handCmp (handId1 handId2 : HandIdentifier) : ℤ :=
  let primary := handId1.handNo - handId2.handNo
  if primary = 0 then handId1.tableNo - handId2.tableNo else primary

/-- `handId1` sorts no later than `handId2` under `handCmp`. -/
def handLe (handId1 handId2 : HandIdentifier) : Bool :=
  decide (handCmp handId1 handId2 ≤ 0)

/-- A bucket is sorted ascending by `(handNo, tableNo)`. -/
def SortedHands (hands : List HandIdentifier) : Prop :=
  List.Pairwise (fun a b => handLe a b = true) hands

instance (hands : List HandIdentifier) : Decidable (SortedHands hands) :=
  inferInstanceAs (Decidable (List.Pairwise _ hands))

/-- The match condition of `_changeHandStatus`'s search loop. -/
def handMatches (handNo nsPair ewPair : ℤ) (handId : HandIdentifier) : Bool :=
  decide (handId.handNo = handNo ∧ handId.northSouthPair.pairNo = nsPair ∧
    handId.eastWestPair.pairNo = ewPair)

/-- The search loop of `_changeHandStatus`: scans `from_hands` in order for
the entry matching `(handNo, nsPair, ewPair)`, breaking early once an entry
with a larger hand number is seen (the list is expected sorted).  Returns the
found entry together with `from_hands` with that entry spliced out. -/
def findHand (handNo nsPair ewPair : ℤ) :
    List HandIdentifier → Option (HandIdentifier × List HandIdentifier)
  | [] => none
  | handId :: rest =>
      if handMatches handNo nsPair ewPair handId then some (handId, rest)
      else if handId.handNo > handNo then none
      else (findHand handNo nsPair ewPair rest).map fun found =>
        (found.1, handId :: found.2)

/-- The `to_hands.sort(...)` call: a stable sort by `handCmp`. -/
def sortHands (hands : List HandIdentifier) : List HandIdentifier :=
  hands.mergeSort handLe

/-- `_changeHandStatus(handNo, nsPair, ewPair, from_hands, to_hands)`: when
the identified hand is found in `from_hands` it is spliced out, pushed onto
`to_hands`, and `to_hands` is re-sorted by `(handNo, tableNo)`; otherwise
both lists are left alone. -/
def changeHandStatus (handNo nsPair ewPair : ℤ)
    (fromHands toHands : List HandIdentifier) :
    List HandIdentifier × List HandIdentifier :=
  match findHand handNo nsPair ewPair fromHands with
  | none => (fromHands, toHands)
  | some (found, fromRest) => (fromRest, sortHands (toHands ++ [found]))

/-- Modelled from the spec: one entry of `TournamentStatus.roundStatus` — the
per-round partition of scheduled hands into scored and unscored buckets. -/
structure RoundStatus where
  scoredHands : List HandIdentifier
  unscoredHands : List HandIdentifier
deriving DecidableEq, Repr

/-- Modelled from the spec: the cached per-tournament status record consumed
by `_updateTournamentStatus`. -/
structure TournamentStatus where
  roundStatus : List RoundStatus
deriving DecidableEq, Repr

/-- The per-round action of `_updateTournamentStatus` (a hand was scored:
`_changeHandStatus(handNo, nsPair, ewPair, round.unscoredHands,
round.scoredHands)`). -/
def updateRoundScored (handNo nsPair ewPair : ℤ) (round : RoundStatus) :
    RoundStatus :=
  let moved := changeHandStatus handNo nsPair ewPair round.unscoredHands round.scoredHands
  { scoredHands := moved.2, unscoredHands := moved.1 }

/-- The per-round action of `clearScore`'s status reconciliation (a hand was
cleared: `_changeHandStatus(handNo, nsPair, ewPair, round.scoredHands,
round.unscoredHands)`). -/
def updateRoundUnscored (handNo nsPair ewPair : ℤ) (round : RoundStatus) :
    RoundStatus :=
  let moved := changeHandStatus handNo nsPair ewPair round.scoredHands round.unscoredHands
  { scoredHands := moved.1, unscoredHands := moved.2 }

/-- Keyed lookup in the tournament-status cache. -/
def lookupStatus : List (String × TournamentStatus) → String → Option TournamentStatus
  | [], _ => none
  | kv :: rest, tournamentId =>
      if kv.1 = tournamentId then some kv.2 else lookupStatus rest tournamentId

/-- `_updateTournamentStatus(tournamentId, handNo, nsPair, ewPair)`: when a
status is cached for the tournament, every round's buckets get the
scored-direction move applied. -/
def updateTournamentStatus (statuses : List (String × TournamentStatus))
    (tournamentId : String) (handNo nsPair ewPair : ℤ) :
    List (String × TournamentStatus) :=
  match lookupStatus statuses tournamentId with
  | none => statuses
  | some _ => statuses.map fun kv =>
      if kv.1 = tournamentId then
        (kv.1, ⟨kv.2.roundStatus.map (updateRoundScored handNo nsPair ewPair)⟩)
      else kv

/-- The status reconciliation inlined in `clearScore`'s success handler: the
unscored-direction move applied to every round, when a status is cached. -/
def updateTournamentStatusCleared (statuses : List (String × TournamentStatus))
    (tournamentId : String) (handNo nsPair ewPair : ℤ) :
    List (String × TournamentStatus) :=
  match lookupStatus statuses tournamentId with
  | none => statuses
  | some _ => statuses.map fun kv =>
      if kv.1 = tournamentId then
        (kv.1, ⟨kv.2.roundStatus.map (updateRoundUnscored handNo nsPair ewPair)⟩)
      else kv

/-- Modelled from the spec: `tichu.MovementRound` — the per-pair, per-round
projection.  A fresh round (as built by `_parseMovementRound`) has every field
unset; `side` is read (never written) by that function's side-validity check,
while the spec's `MovementRound` carries no such field, so it stays unset. -/
structure MovementRound where
  roundNo : Option ℤ := none
  isSitOut : Option Bool := none
  opponent : Option TournamentPair := none
  position : Option String := none
  table : Option String := none
  isRelayTable : Option Bool := none
  hands : Option (List Hand) := none
  side : Option String := none
deriving DecidableEq, Repr

/-- Modelled from the spec: the tournament header carried by a cached
movement (`movement.tournamentId.name` is assigned during parsing). -/
structure TournamentHeader where
  id : String
  name : String
deriving DecidableEq, Repr

/-- Modelled from the spec: `tichu.Movement` — the cached movement object for
one `(tournamentId, pairNo)`. -/
structure Movement where
  tournamentId : TournamentHeader
  pair : TournamentPair
  rounds : List MovementRound
  allowScoreOverwrites : Bool
deriving DecidableEq, Repr

/-- The key of the movement store: `(tournamentId, pairNo)`. -/
structure MovementKey where
  tournamentId : String
  pairNo : ℤ
deriving DecidableEq, Repr

/-- Keyed lookup in the movement store (`hasMovement` is `isSome` of this). -/
def lookupMovement : List (MovementKey × Movement) → MovementKey → Option Movement
  | [], _ => none
  | kv :: rest, key => if kv.1 = key then some kv.2 else lookupMovement rest key

/-- Keyed lookup in the pending-promise cache. -/
def lookupPromise : List (String × ℕ) → String → Option ℕ
  | [], _ => none
  | kv :: rest, key => if kv.1 = key then some kv.2 else lookupPromise rest key

/-- The whole mutable state of `TichuMovementService`: the hand cache and the
tournament-status cache (`TichuTournamentStore`), the movement store, and the
in-flight movement-promise cache (pending promises named by identifiers drawn
from the `nextPromiseId` counter). -/
structure ServiceState where
  hands : List (HandKey × Hand)
  tournamentStatuses : List (String × TournamentStatus)
  movements : List (MovementKey × Movement)
  movementPromiseCache : List (String × ℕ)
  nextPromiseId : ℕ
deriving DecidableEq

/-- The client-side error object rejected promises carry. -/
structure RpcError where
  updatedState : Bool
  redirectToLogin : Bool
  error : Option String
  detail : Option String
deriving DecidableEq, Repr

/-- Modelled from the spec: `ServiceHelpers.handleErrorIn($q, $log, path, ...)`
converts a failed HTTP response into a rejected promise carrying an
`RpcError`; it reads no service state and writes none.  Its field contents
participate in no verified property; a fresh `RpcError` has `updatedState`
unset. -/
def handleErrorIn (_status : ℕ) (_data : Option Json) : RpcError :=
  { updatedState := false, redirectToLogin := false, error := none, detail := none }

/-- The settled HTTP response a score-mutation request ends with. -/
inductive HttpResult where
  | success
  | failure (status : ℕ) (data : Option Json)

/-- How the promise returned by `recordScore`/`clearScore` settles. -/
inductive RecordOutcome where
  | resolved
  | rejected (e : RpcError)
  | thrown (message : String)
deriving DecidableEq, Repr

/-- `recordScore(tournamentId, nsPair, ewPair, handNo, score, pairCode)`,
indexed by the settled outcome of the PUT request.  On success the cached
hand receives the submitted score and the status buckets are reconciled; on a
405 failure the server-sent current score replaces the cached one, the
buckets are reconciled, and the rejection carries `updatedState = true`; any
other failure leaves all state untouched and rejects through
`ServiceHelpers.handleErrorIn`. -/
def recordScore (st : ServiceState) (tournamentId : String)
    (nsPair ewPair handNo : ℤ) (score : HandScore) (resp : HttpResult) :
    ServiceState × RecordOutcome :=
  let key : HandKey := ⟨tournamentId, nsPair, ewPair, handNo⟩
  match resp with
  | .success =>
      let hands1 := assignScore (ensureHand st.hands key) key (some score)
      ({ st with hands := hands1,
                 tournamentStatuses :=
                   updateTournamentStatus st.tournamentStatuses tournamentId handNo nsPair ewPair },
       .resolved)
  | .failure status data =>
      if status = 405 then
        -- `getOrCreateHand(...)` runs before the response body is parsed, so
        -- a malformed body leaves the hand cached but unmodified and the
        -- thrown parse error propagates as the rejection.
        let hands0 := ensureHand st.hands key
        match parseHandScore "hand score rejection" data with
        | .ok newScore =>
            ({ st with hands := assignScore hands0 key newScore,
                       tournamentStatuses :=
                         updateTournamentStatus st.tournamentStatuses tournamentId handNo nsPair ewPair },
             .rejected { updatedState := true, redirectToLogin := false,
                         error := none, detail := none })
        | .error message => ({ st with hands := hands0 }, .thrown message)
      else (st, .rejected (handleErrorIn status data))

/-- `clearScore(tournamentId, nsPair, ewPair, handNo, pairCode)`, indexed by
the settled outcome of the DELETE request.  On success the cached hand's
score becomes `null` and the buckets are reconciled in the unscored
direction; any failure leaves all state untouched and rejects. -/
def clearScore (st : ServiceState) (tournamentId : String)
    (nsPair ewPair handNo : ℤ) (resp : HttpResult) :
    ServiceState × RecordOutcome :=
  let key : HandKey := ⟨tournamentId, nsPair, ewPair, handNo⟩
  match resp with
  | .success =>
      let hands1 := assignScore (ensureHand st.hands key) key none
      ({ st with hands := hands1,
                 tournamentStatuses :=
                   updateTournamentStatusCleared st.tournamentStatuses tournamentId handNo nsPair ewPair },
       .resolved)
  | .failure status data => (st, .rejected (handleErrorIn status data))

/-- Hexadecimal digit characters used by the percent-encoding model. -/
def hexDigit (n : ℕ) : Char :=
  (['0','1','2','3','4','5','6','7','8','9','A','B','C','D','E','F']).getD n '0'

/-- Models the JS builtin `encodeURIComponent` on single-byte code points:
unreserved characters pass through, everything else is percent-encoded (the
apostrophe, also unreserved, is matched by its code point 39).  The verified
properties use the encoding only as a fixed function of its input. -/
def encodeURIComponent (s : String) : String :=
  String.join (s.data.map fun c =>
    if c.isAlphanum || c ∈ ['-', '_', '.', '!', '~', '*', '(', ')'] || c.toNat = 39 then
      String.mk [c]
    else String.mk ['%', hexDigit (c.toNat / 16 % 16), hexDigit (c.toNat % 16)])

/-- Models `Number.prototype.toString` over the integer-valued number model:
the plain decimal numeral. -/
def intToJsString (n : ℤ) : String := toString n

/-- The key of the movement-promise cache:
`encodeURIComponent(tournamentId) + "/" + encodeURIComponent(pairNo.toString())
+ "/" + encodeURIComponent(pairCode || "")`. -/
def movementPromiseCacheKey (tournamentId : String) (pairNo : ℤ)
    (pairCode : Option String) : String :=
  encodeURIComponent tournamentId ++ "/" ++
    encodeURIComponent (intToJsString pairNo) ++ "/" ++
    encodeURIComponent (pairCode.getD "")

/-- What `getMovement` hands back to its caller. -/
inductive GetMovementOutcome where
  | resolvedFromStore (movement : Movement)
  | existingPromise (promiseId : ℕ)
  | newRequest (promiseId : ℕ)
deriving DecidableEq

/-- The promise-cache path of `getMovement` (reached when the movement store
has no usable entry): an already-pending promise for the cache key is
returned as-is, otherwise a new request is issued and registered under the
key. -/
def getMovementRequest (st : ServiceState) (tournamentId : String)
    (pairNo : ℤ) (pairCode : Option String) :
    ServiceState × GetMovementOutcome :=
  let key := movementPromiseCacheKey tournamentId pairNo pairCode
  match lookupPromise st.movementPromiseCache key with
  | some promiseId => (st, .existingPromise promiseId)
  | none =>
      ({ st with
           movementPromiseCache := (key, st.nextPromiseId) :: st.movementPromiseCache,
           nextPromiseId := st.nextPromiseId + 1 },
       .newRequest st.nextPromiseId)

/-- `getMovement(tournamentId, pairNo, pairCode, refresh)`: without `refresh`,
a stored movement is returned resolved immediately; otherwise the
promise-cache path runs. -/
def getMovement (st : ServiceState) (tournamentId : String) (pairNo : ℤ)
    (pairCode : Option String) (refresh : Bool) :
    ServiceState × GetMovementOutcome :=
  if !refresh then
    match lookupMovement st.movements ⟨tournamentId, pairNo⟩ with
    | some movement => (st, .resolvedFromStore movement)
    | none => getMovementRequest st tournamentId pairNo pairCode
  else getMovementRequest st tournamentId pairNo pairCode

/-- How an issued movement request settles (the `finally` handler receives no
information about which way it went). -/
inductive SettleOutcome where
  | fulfilled
  | rejectedSettle

/-- The `afterResolution` finally-handler registered on a newly issued
request: whichever way the promise settles, the pending-promise cache entry
for its key is removed. -/
def movementRequestSettled (st : ServiceState) (tournamentId : String)
    (pairNo : ℤ) (pairCode : Option String) (_outcome : SettleOutcome) :
    ServiceState :=
  { st with
      movementPromiseCache := st.movementPromiseCache.eraseP
        (fun kv => decide (kv.1 = movementPromiseCacheKey tournamentId pairNo pairCode)) }

/-- Modelled from the spec: `tichu.Change` — one change-log entry; a `null`
`change` denotes a deletion event. -/
structure Change where
  change : Option HandScore
  changedBy : ℤ
  timestamp : String
deriving DecidableEq, Repr

/-- Stands in for the locale-dependent `Date` rendering of the raw
`timestamp_sec` string in `_parseChange`; the rendered text participates in
no verified property, so the raw string is carried through unchanged. -/
def formatTimestamp (timestampSec : String) : String := timestampSec

/-- The strict comparison `x === null` on a property value. -/
def isNullField : Option Json → Bool
  | some .null => true
  | _ => false

/-- `_parseChange(data)`: validates the timestamp, actor and change object;
the change is `null` exactly when the entry's `ns_score` and `ew_score` are
both (strictly) `null`, and is the parsed `HandScore` otherwise. -/
def parseChange (data : Json) : Except String Change := do
  let timestampSec ← asString "change log timestamp" (jsonGet data "timestamp_sec")
  let timestamp := formatTimestamp timestampSec
  let changedBy ← asNumber "change log changedby" (jsonGet data "changed_by")
  let changeFields ← asObject "change log change" (jsonGet data "change")
  let changeObj := Json.obj changeFields
  if isNullField (jsonGet changeObj "ns_score") && isNullField (jsonGet changeObj "ew_score") then
    pure { change := none, changedBy := changedBy, timestamp := timestamp }
  else do
    let change ← parseHandScore "change log change" (some changeObj)
    pure { change := change, changedBy := changedBy, timestamp := timestamp }

/-- Modelled from the spec: `tichu.ChangeLog` — the list of changes for one
hand, newest first as sent by the server. -/
structure ChangeLog where
  changes : List Change
deriving DecidableEq, Repr

/-- `_parseChangeLog(data)`: asserts the envelope and maps `_parseChange`
over the `changes` array. -/
def parseChangeLog (data : Option Json) : Except String ChangeLog := do
  let dataFields ← asObject "change log data" data
  let changesList ← asArray "changes" (jsonGet (Json.obj dataFields) "changes")
  let changes ← changesList.mapM parseChange
  pure { changes := changes }

/-- Modelled from the spec: the opponent-name entries are wrapped into player
records (`{name: n}`); the responses carry them as strings (api.md), the only
case the model preserves. -/
def jsToPlayerName : Json → Option String
  | .str s => some s
  | _ => none

/-- `_parseHand(tournamentId, nsPair, ewPair, roundContext, handData,
handIndex)`: validates the hand number, parses the optional score, then
fetches-or-creates the cached hand for the key and overwrites its pairs and
score in place.  Returns the updated store and the updated hand. -/
def parseHand (hands : List (HandKey × Hand)) (tournamentId : String)
    (nsPair ewPair : TournamentPair) (roundContext : String) (handData : Json)
    (handIndex : ℕ) : Except String (List (HandKey × Hand) × Hand) := do
  let handContext := roundContext ++ " hand[" ++ toString handIndex ++ "]"
  let _ ← assertType handContext (some handData) "object" false
  let handNo ← asNumber (handContext ++ " hand number") (jsonGet handData "hand_no")
  -- the `Math.floor(handNo) !== handNo` conjunct of the source guard is
  -- identically false over the integer-valued number model
  if handNo ≤ 0 then
    .error (handContext ++ " hand number was not a positive integer")
  else do
    let score ← parseHandScore handContext (jsonGet handData "score")
    let key : HandKey := ⟨tournamentId, nsPair.pairNo, ewPair.pairNo, handNo⟩
    let got := getOrCreateHand hands key
    let hand : Hand :=
      { got.1 with northSouthPair := nsPair, eastWestPair := ewPair, score := score }
    pure (got.2.map fun kv => if kv.1 = key then (kv.1, hand) else kv, hand)

/-- The `movementRound['hands'].map(this._parseHand.bind(...))` call, with the
store threaded through the successive `_parseHand` mutations. -/
def parseHands (hands : List (HandKey × Hand)) (tournamentId : String)
    (nsPair ewPair : TournamentPair) (roundContext : String) :
    List Json → ℕ → Except String (List (HandKey × Hand) × List Hand)
  | [], _ => .ok (hands, [])
  | handData :: rest, handIndex => do
      let first ← parseHand hands tournamentId nsPair ewPair roundContext handData handIndex
      let others ← parseHands first.1 tournamentId nsPair ewPair roundContext rest (handIndex + 1)
      pure (others.1, first.2 :: others.2)

/-- The test `movementRound['opponent'] === null || movementRound['opponent']
=== undefined` that selects the sit-out branch of `_parseMovementRound`. -/
def isOpponentAbsent : Option Json → Bool
  | none => true
  | some .null => true
  | some _ => false

/-- `_parseMovementRound(tournamentId, pair, movementRound, index)`.  A `null`
or absent `opponent` yields a sit-out round carrying only its round number;
otherwise the opponent, position, table, relay flag and hands are parsed.
The side-validity guard reads `round.side` — a field this service never
assigns — so it consults a permanently unset value. -/
def parseMovementRound (hands : List (HandKey × Hand)) (tournamentId : String)
    (pair : TournamentPair) (movementRound : Json) (index : ℕ) :
    Except String (List (HandKey × Hand) × MovementRound) := do
  let context := "movement round[" ++ toString index ++ "]"
  let _ ← assertType context (some movementRound) "object" false
  let roundNo ← asNumber (context ++ " round") (jsonGet movementRound "round")
  if isOpponentAbsent (jsonGet movementRound "opponent") then
    pure (hands, { roundNo := some roundNo, isSitOut := some true })
  else do
      let opponentNo ← asNumber (context ++ " opponent") (jsonGet movementRound "opponent")
      -- again, the `Math.floor` conjunct of the source guard is identically
      -- false over the integer-valued number model
      if opponentNo ≤ 0 then
        .error (context ++ " opponent was not a positive integer")
      else do
        let opponentNames ← asArray (context ++ " opponent names")
            (jsonGet movementRound "opponent_names")
        let opponent : TournamentPair :=
          { pairNo := opponentNo,
            players := opponentNames.map fun n => { name := jsToPlayerName n, email := none } }
        let position ← asString (context ++ " position") (jsonGet movementRound "position")
        if position.length ≤ 1 then
          .error (context ++ " position was too short")
        else do
          let round : MovementRound :=
            { roundNo := some roundNo, isSitOut := some false,
              opponent := some opponent,
              position := some (position.takeRight 1),
              table := some (position.dropRight 1) }
          if !(isValidPairPositionOpt round.side) then
            .error (context ++ " position didn't end in a valid side")
          else do
            let relay ← asBoolean (context ++ " relay table")
                (jsonGet movementRound "relay_table")
            let pairs :=
              if round.position = some PairPosition.northSouth then (pair, opponent)
              else (opponent, pair)
            let handsData ← asArray (context ++ " hands") (jsonGet movementRound "hands")
            let parsed ← parseHands hands tournamentId pairs.1 pairs.2 context handsData 0
            pure (parsed.1,
              { round with isRelayTable := some relay, hands := some parsed.2 })

/-- The specification of one bucket-to-bucket transition: when the source
bucket holds an entry matching `(handNo, nsPair, ewPair)`, exactly that entry
leaves the source bucket and joins the target bucket (no other entry is
added, removed or duplicated); otherwise both buckets are untouched. -/
def movesBetween (handNo nsPair ewPair : ℤ)
    (fromHands toHands fromAfter toAfter : List HandIdentifier) : Prop :=
  match fromHands.find? (handMatches handNo nsPair ewPair) with
  | some found =>
      fromAfter = fromHands.eraseP (handMatches handNo nsPair ewPair) ∧
      toAfter.Perm (found :: toHands)
  | none => fromAfter = fromHands ∧ toAfter = toHands

/-- The call entry one seat contributes to `_parseHandScore`'s `calls` list:
present, string-valued and non-empty, else omitted. -/
def callEntryAt (callData : Json) (position : String) : Option CallEntry :=
  match jsonGet callData position with
  | some (.str call) => if call = "" then none else some ⟨position, call⟩
  | _ => none

/-- The call entry one seat contributes for a whole score object (`none`
whenever the `calls` property is absent or `null`). -/
def callEntryOf (scoreData : Json) (position : String) : Option CallEntry :=
  match jsonGet scoreData "calls" with
  | some callData => callEntryAt callData position
  | none => none

/-- A small tournament pair for concrete instantiations. -/
def samplePair (n : ℤ) : TournamentPair := ⟨n, []⟩

/-- A concrete bucket entry. -/
def sampleHandId (h t ns ew : ℤ) : HandIdentifier :=
  ⟨h, samplePair ns, samplePair ew, t⟩

/-- A concrete cached tournament status: one round, hand 1 scored, hands 2
and 3 unscored, both buckets sorted by `(handNo, tableNo)`. -/
def sampleStatus : TournamentStatus :=
  ⟨[{ scoredHands := [sampleHandId 1 1 1 2],
      unscoredHands := [sampleHandId 2 1 3 4, sampleHandId 3 2 5 6] }]⟩

/-- A concrete service state with the sample status cached for tournament
`"t"`. -/
def sampleState : ServiceState :=
  { hands := [], tournamentStatuses := [("t", sampleStatus)], movements := [],
    movementPromiseCache := [], nextPromiseId := 0 }

/-- A concrete submitted score. -/
def sampleScore : HandScore :=
  { calls := [⟨"north", "T"⟩], northSouthScore := .num 150,
    eastWestScore := .num (-150), notes := none }

/-- A concrete 405 response body. -/
def sampleErrorBody : Json :=
  Json.obj [("calls", Json.obj []), ("ns_score", Json.num 25),
            ("ew_score", Json.num 75), ("notes", Json.null)]

/-- The score the server reports in `sampleErrorBody`. -/
def sampleServerScore : HandScore :=
  { calls := [], northSouthScore := .num 25, eastWestScore := .num 75,
    notes := none }

/-- A concrete sit-out movement-round object. -/
def sampleSitOutRound : Json := Json.obj [("round", Json.num 2)]

/-- The round `sampleSitOutRound` parses to. -/
def sampleSitOutParsed : MovementRound :=
  { roundNo := some 2, isSitOut := some true }

/-- A well-formed seated movement-round object: positive-integer opponent,
string position of length two ending in the valid north/south side. -/
def sampleSeatedRound : Json :=
  Json.obj [("round", Json.num 1), ("opponent", Json.num 2),
            ("opponent_names", Json.arr [Json.str "Ann", Json.str "Bob"]),
            ("position", Json.str "3N"), ("relay_table", Json.bool false),
            ("hands", Json.arr [])]

/-- The change object of a concrete deletion entry. -/
def sampleDeletionFields : List (String × Json) :=
  [("ns_score", Json.null), ("ew_score", Json.null)]

/-- A concrete deletion change-log entry. -/
def sampleDeletionEntry : Json :=
  Json.obj [("timestamp_sec", Json.str "1700000000"),
            ("changed_by", Json.num 0),
            ("change", Json.obj sampleDeletionFields)]

/-- The change `sampleDeletionEntry` parses to. -/
def sampleDeletionChange : Change :=
  { change := none, changedBy := 0, timestamp := "1700000000" }

/-- A concrete score body with one real call, one empty-string call entry and
one `null` call entry. -/
def sampleScoreBody : Json :=
  Json.obj [("calls", Json.obj [("north", Json.str "T"), ("east", Json.str ""),
                                ("south", Json.null)]),
            ("ns_score", Json.num 150), ("ew_score", Json.num (-150)),
            ("notes", Json.str "")]

/-- The score `sampleScoreBody` parses to: only the north call survives, the
empty `notes` becomes `null`. -/
def sampleParsedScore : HandScore :=
  { calls := [⟨"north", "T"⟩], northSouthScore := .num 150,
    eastWestScore := .num (-150), notes := none }


lemma handLe_iff (a b : HandIdentifier) :
    handLe a b = true ↔
      (a.handNo < b.handNo ∨ (a.handNo = b.handNo ∧ a.tableNo ≤ b.tableNo)) := by
  unfold handLe handCmp
  by_cases h : a.handNo - b.handNo = 0
  · have he : a.handNo = b.handNo := by linarith
    simp [h, he, sub_nonpos]
  · have hne : a.handNo ≠ b.handNo := fun hh => h (by rw [hh]; ring)
    simp only [if_neg h, decide_eq_true_eq, sub_nonpos]
    constructor
    · intro hle
      exact Or.inl (lt_of_le_of_ne hle hne)
    · rintro (hlt | ⟨he, _⟩)
      · exact le_of_lt hlt
      · exact absurd he hne

lemma handLe_trans (a b c : HandIdentifier) :
    handLe a b → handLe b c → handLe a c := by
  simp only [handLe_iff]
  rintro (h1 | ⟨h1, h1t⟩) (h2 | ⟨h2, h2t⟩)
  · exact Or.inl (lt_trans h1 h2)
  · exact Or.inl (h2 ▸ h1)
  · exact Or.inl (h1 ▸ h2)
  · exact Or.inr ⟨h1.trans h2, h1t.trans h2t⟩

lemma handLe_total (a b : HandIdentifier) :
    handLe a b || handLe b a := by
  rw [Bool.or_eq_true, handLe_iff, handLe_iff]
  rcases lt_trichotomy a.handNo b.handNo with h | h | h
  · exact Or.inl (Or.inl h)
  · rcases le_total a.tableNo b.tableNo with ht | ht
    · exact Or.inl (Or.inr ⟨h, ht⟩)
    · exact Or.inr (Or.inr ⟨h.symm, ht⟩)
  · exact Or.inr (Or.inl h)

lemma sortHands_sorted (l : List HandIdentifier) : SortedHands (sortHands l) := by
  exact @List.sorted_mergeSort _ handLe
    (fun a b c => handLe_trans a b c) (fun a b => handLe_total a b) l

lemma sortHands_perm (l : List HandIdentifier) : (sortHands l).Perm l :=
  List.mergeSort_perm l handLe

lemma findHand_eq_some (hn ns ew : ℤ) :
    ∀ (l : List HandIdentifier) (x : HandIdentifier) (rest : List HandIdentifier),
      findHand hn ns ew l = some (x, rest) →
      handMatches hn ns ew x = true ∧
      l.find? (handMatches hn ns ew) = some x ∧
      rest = l.eraseP (handMatches hn ns ew) := by
  intro l
  induction l with
  | nil => intro x rest h; simp [findHand] at h
  | cons head tail ih =>
      intro x rest h
      by_cases hm : handMatches hn ns ew head = true
      · rw [findHand, if_pos hm] at h
        obtain ⟨hx, hrest⟩ := Prod.mk.injEq .. ▸ Option.some.inj h
        subst hx; subst hrest
        refine ⟨hm, ?_, ?_⟩
        · simp [List.find?_cons_of_pos _ hm]
        · simp [List.eraseP_cons, hm]
      · rw [findHand, if_neg hm] at h
        by_cases hgt : head.handNo > hn
        · rw [if_pos hgt] at h; exact absurd h (by simp)
        · rw [if_neg hgt] at h
          obtain ⟨⟨x', rest'⟩, hfind, heq⟩ := Option.map_eq_some'.mp h
          obtain ⟨hx, hrest⟩ := Prod.mk.injEq .. ▸ heq
          subst hx; subst hrest
          obtain ⟨h1, h2, h3⟩ := ih x' rest' hfind
          refine ⟨h1, ?_, ?_⟩
          · rw [List.find?_cons_of_neg _ hm]; exact h2
          · simp [List.eraseP_cons, hm, h3]

lemma handMatches_false_of_gt (hn ns ew : ℤ) (x : HandIdentifier)
    (h : hn < x.handNo) : ¬ handMatches hn ns ew x = true := by
  unfold handMatches
  simp only [decide_eq_true_eq, not_and]
  intro hx
  exact absurd hx (ne_of_gt h)

lemma findHand_eq_none (hn ns ew : ℤ) :
    ∀ (l : List HandIdentifier), SortedHands l →
      findHand hn ns ew l = none →
      l.find? (handMatches hn ns ew) = none := by
  intro l
  induction l with
  | nil => intro _ _; simp
  | cons head tail ih =>
      intro hsorted h
      obtain ⟨hhead, htail⟩ := List.pairwise_cons.mp hsorted
      by_cases hm : handMatches hn ns ew head = true
      · rw [findHand, if_pos hm] at h; exact absurd h (by simp)
      · rw [findHand, if_neg hm] at h
        rw [List.find?_cons_of_neg _ hm]
        by_cases hgt : head.handNo > hn
        · rw [List.find?_eq_none]
          intro y hy
          have hle := hhead y hy
          have := (handLe_iff head y).mp hle
          have hylt : hn < y.handNo := by
            rcases this with h1 | ⟨h1, _⟩
            · exact lt_trans hgt h1
            · exact h1 ▸ hgt
          exact handMatches_false_of_gt hn ns ew y hylt
        · rw [if_neg hgt] at h
          exact ih htail (Option.map_eq_none'.mp h)

lemma changeHandStatus_moves (hn ns ew : ℤ) (f t : List HandIdentifier)
    (hf : SortedHands f) :
    movesBetween hn ns ew f t
      (changeHandStatus hn ns ew f t).1 (changeHandStatus hn ns ew f t).2 := by
  unfold changeHandStatus movesBetween
  cases hfind : findHand hn ns ew f with
  | none =>
      rw [findHand_eq_none hn ns ew f hf hfind]
      exact ⟨rfl, rfl⟩
  | some pr =>
      obtain ⟨x, rest⟩ := pr
      obtain ⟨hmx, hfindq, hrest⟩ := findHand_eq_some hn ns ew f x rest hfind
      rw [hfindq]
      exact ⟨hrest, (sortHands_perm (t ++ [x])).trans (List.perm_append_singleton x t)⟩

lemma changeHandStatus_sorted_fst (hn ns ew : ℤ) (f t : List HandIdentifier)
    (hf : SortedHands f) :
    SortedHands (changeHandStatus hn ns ew f t).1 := by
  unfold changeHandStatus
  cases hfind : findHand hn ns ew f with
  | none => exact hf
  | some pr =>
      obtain ⟨x, rest⟩ := pr
      obtain ⟨_, _, hrest⟩ := findHand_eq_some hn ns ew f x rest hfind
      simp only []
      rw [hrest]
      exact List.Pairwise.sublist (List.eraseP_sublist f) hf

lemma changeHandStatus_sorted_snd (hn ns ew : ℤ) (f t : List HandIdentifier)
    (ht : SortedHands t) :
    SortedHands (changeHandStatus hn ns ew f t).2 := by
  unfold changeHandStatus
  cases hfind : findHand hn ns ew f with
  | none => exact ht
  | some pr =>
      obtain ⟨x, rest⟩ := pr
      exact sortHands_sorted (t ++ [x])

lemma lookupStatus_map_entry (tid : String) (g : TournamentStatus → TournamentStatus) :
    ∀ (statuses : List (String × TournamentStatus)) (status : TournamentStatus),
      lookupStatus statuses tid = some status →
      lookupStatus
        (statuses.map fun kv => if kv.1 = tid then (kv.1, g kv.2) else kv) tid
        = some (g status) := by
  intro statuses
  induction statuses with
  | nil => intro status h; simp [lookupStatus] at h
  | cons kv rest ih =>
      intro status h
      by_cases hk : kv.1 = tid
      · rw [lookupStatus, if_pos hk] at h
        simp only [List.map_cons, if_pos hk]
        rw [lookupStatus, if_pos hk, Option.some.inj h]
      · rw [lookupStatus, if_neg hk] at h
        simp only [List.map_cons, if_neg hk]
        rw [lookupStatus, if_neg hk]
        exact ih status h

lemma lookupStatus_updateTournamentStatus (statuses : List (String × TournamentStatus))
    (tid : String) (hn ns ew : ℤ) (status : TournamentStatus)
    (h : lookupStatus statuses tid = some status) :
    lookupStatus (updateTournamentStatus statuses tid hn ns ew) tid
      = some ⟨status.roundStatus.map (updateRoundScored hn ns ew)⟩ := by
  unfold updateTournamentStatus
  simp only [h]
  exact lookupStatus_map_entry tid
    (fun s0 => ⟨s0.roundStatus.map (updateRoundScored hn ns ew)⟩) statuses status h

lemma lookupStatus_updateTournamentStatusCleared (statuses : List (String × TournamentStatus))
    (tid : String) (hn ns ew : ℤ) (status : TournamentStatus)
    (h : lookupStatus statuses tid = some status) :
    lookupStatus (updateTournamentStatusCleared statuses tid hn ns ew) tid
      = some ⟨status.roundStatus.map (updateRoundUnscored hn ns ew)⟩ := by
  unfold updateTournamentStatusCleared
  simp only [h]
  exact lookupStatus_map_entry tid
    (fun s0 => ⟨s0.roundStatus.map (updateRoundUnscored hn ns ew)⟩) statuses status h

lemma lookupHand_append_self (key : HandKey) (hand : Hand) :
    ∀ hands : List (HandKey × Hand),
      lookupHand hands key = none →
      lookupHand (hands ++ [(key, hand)]) key = some hand := by
  intro hands
  induction hands with
  | nil => intro _; simp [lookupHand]
  | cons kv rest ih =>
      intro h
      by_cases hk : kv.1 = key
      · rw [lookupHand, if_pos hk] at h; exact absurd h (by simp)
      · rw [lookupHand, if_neg hk] at h
        rw [List.cons_append, lookupHand, if_neg hk]
        exact ih h

lemma lookupHand_ensureHand_isSome (hands : List (HandKey × Hand)) (key : HandKey) :
    ∃ h0, lookupHand (ensureHand hands key) key = some h0 := by
  unfold ensureHand getOrCreateHand
  cases hlook : lookupHand hands key with
  | some h0 => exact ⟨h0, by simp only [hlook]⟩
  | none =>
      simp only [hlook]
      exact ⟨_, lookupHand_append_self key _ hands hlook⟩

lemma lookupHand_assignScore (key : HandKey) (s : Option HandScore) :
    ∀ (hands : List (HandKey × Hand)) (h0 : Hand),
      lookupHand hands key = some h0 →
      lookupHand (assignScore hands key s) key = some { h0 with score := s } := by
  intro hands
  induction hands with
  | nil => intro h0 h; simp [lookupHand] at h
  | cons kv rest ih =>
      intro h0 h
      by_cases hk : kv.1 = key
      · rw [lookupHand, if_pos hk] at h
        simp only [assignScore, List.map_cons, if_pos hk]
        rw [lookupHand, if_pos (by exact hk), Option.some.inj h]
      · rw [lookupHand, if_neg hk] at h
        simp only [assignScore, List.map_cons, if_neg hk]
        rw [lookupHand, if_neg hk]
        exact ih h0 h

lemma lookupHand_set (hands : List (HandKey × Hand)) (key : HandKey)
    (s : Option HandScore) :
    ∃ h, lookupHand (assignScore (ensureHand hands key) key s) key = some h ∧
      h.score = s := by
  obtain ⟨h0, hh⟩ := lookupHand_ensureHand_isSome hands key
  exact ⟨{ h0 with score := s }, lookupHand_assignScore key s _ h0 hh, rfl⟩

lemma isNullField_iff (o : Option Json) :
    isNullField o = true ↔ o = some Json.null := by
  cases o with
  | none => simp [isNullField]
  | some j => cases j <;> simp [isNullField]

lemma asObject_ok_imp (ctx : String) (v : Option Json)
    (fields : List (String × Json)) (h : asObject ctx v = .ok fields) :
    v = some (Json.obj fields) := by
  unfold asObject at h
  cases v with
  | none =>
      rw [show assertType ctx none "object" false
        = .error (ctx ++ " was not set") from rfl] at h
      simp [Bind.bind, Except.bind] at h
  | some j =>
      cases j with
      | null =>
          rw [show assertType ctx (some Json.null) "object" false
            = .error (ctx ++ " was not set") from rfl] at h
          simp [Bind.bind, Except.bind] at h
      | bool b =>
          rw [show assertType ctx (some (Json.bool b)) "object" false
            = .error (ctx ++ " was not a " ++ "object") from rfl] at h
          simp [Bind.bind, Except.bind] at h
      | num n =>
          rw [show assertType ctx (some (Json.num n)) "object" false
            = .error (ctx ++ " was not a " ++ "object") from rfl] at h
          simp [Bind.bind, Except.bind] at h
      | str s =>
          rw [show assertType ctx (some (Json.str s)) "object" false
            = .error (ctx ++ " was not a " ++ "object") from rfl] at h
          simp [Bind.bind, Except.bind] at h
      | arr elems =>
          rw [show assertType ctx (some (Json.arr elems)) "object" false
            = .error (ctx ++ " was not a " ++ "object") from rfl] at h
          simp [Bind.bind, Except.bind] at h
      | obj fs =>
          rw [show assertType ctx (some (Json.obj fs)) "object" false
            = .ok (some (Json.obj fs)) from rfl] at h
          simp only [Bind.bind, Except.bind, pure, Except.pure,
            Except.ok.injEq] at h
          rw [h]

lemma parseHandScore_obj_isSome (ctx : String) (fields : List (String × Json))
    (r : Option HandScore) (h : parseHandScore ctx (some (Json.obj fields)) = .ok r) :
    ∃ s, r = some s := by
  unfold parseHandScore at h
  rw [show assertType (ctx ++ " score") (some (Json.obj fields)) "object" true
    = .ok (some (Json.obj fields)) from rfl] at h
  simp only [Bind.bind, Except.bind, pure, Except.pure] at h
  split at h
  · simp at h
  · simp only [Except.ok.injEq] at h
    exact ⟨_, h.symm⟩

lemma assertType_opt_cases (ctx ty : String) (v : Option Json) (r : Option Json)
    (h : assertType ctx v ty true = .ok r) :
    (r = none ∧ (v = none ∨ v = some Json.null)) ∨ (∃ j, v = some j ∧ r = some j) := by
  unfold assertType at h
  split at h
  · simp only [if_true, Except.ok.injEq] at h
    exact Or.inl ⟨h.symm, Or.inl rfl⟩
  · simp only [if_true, Except.ok.injEq] at h
    exact Or.inl ⟨h.symm, Or.inr rfl⟩
  · split at h
    · simp only [Except.ok.injEq] at h
      exact Or.inr ⟨_, rfl, h.symm ▸ rfl⟩
    · simp at h

lemma parseCallForPosition_ok (ctx : String) (callData : Json) (p : String)
    (o : Option CallEntry) (h : parseCallForPosition ctx callData p = .ok o) :
    o = callEntryAt callData p ∧
    ∀ e, o = some e → e.side = p ∧ e.call ≠ "" ∧ isValidCall e.call = true := by
  unfold parseCallForPosition at h
  simp only [Bind.bind, Except.bind, pure, Except.pure] at h
  split at h
  · simp at h
  · rename_i callv hA
    rcases assertType_opt_cases _ _ _ _ hA with ⟨hnone, hv⟩ | ⟨j, hj, hsome⟩
    · subst hnone
      simp only [Except.ok.injEq] at h
      subst h
      refine ⟨?_, by simp⟩
      rcases hv with hv | hv <;> simp [callEntryAt, hv]
    · subst hsome
      split at h
      · rename_i heq
        exact absurd heq (by simp)
      · rename_i call heq
        have hj' : jsonGet callData p = some (Json.str call) := by
          rw [hj]
          exact congrArg some (Option.some.inj heq)
        split at h
        · rename_i hempty
          simp only [Except.ok.injEq] at h
          subst h
          refine ⟨?_, by simp⟩
          simp [callEntryAt, hj', hempty]
        · rename_i hempty
          split at h
          · simp at h
          · rename_i hvalid
            have hvalid' : isValidCall call = true := by
              revert hvalid
              cases isValidCall call <;> simp
            simp only [Except.ok.injEq] at h
            subst h
            refine ⟨?_, ?_⟩
            · simp [callEntryAt, hj', hempty]
            · intro e he
              have he' : e = ⟨p, call⟩ := (Option.some.inj he).symm
              subst he'
              exact ⟨rfl, hempty, hvalid'⟩
      · rename_i val hne heq
        simp at h

lemma mapM_parseCallForPosition (ctx : String) (callData : Json) :
    ∀ (ps : List String) (os : List (Option CallEntry)),
      ps.mapM (parseCallForPosition ctx callData) = .ok os →
      os = ps.map (callEntryAt callData) ∧
      ∀ o ∈ os, ∀ e, o = some e →
        e.side ∈ ps ∧ e.call ≠ "" ∧ isValidCall e.call = true := by
  intro ps
  induction ps with
  | nil =>
      intro os h
      simp only [List.mapM_nil, pure, Except.pure, Except.ok.injEq] at h
      subst h
      exact ⟨rfl, by simp⟩
  | cons p ps ih =>
      intro os h
      rw [List.mapM_cons] at h
      simp only [Bind.bind, Except.bind, pure, Except.pure] at h
      split at h
      · simp at h
      · rename_i o1 h1
        split at h
        · simp at h
        · rename_i os1 hos1
          simp only [Except.ok.injEq] at h
          subst h
          obtain ⟨ha, hb⟩ := parseCallForPosition_ok ctx callData p o1 h1
          obtain ⟨hc, hd⟩ := ih os1 hos1
          refine ⟨by rw [List.map_cons, ← ha, ← hc], ?_⟩
          intro o ho e he
          rcases List.mem_cons.mp ho with rfl | hmem
          · obtain ⟨hside, hne, hvalid⟩ := hb e he
            exact ⟨hside ▸ List.mem_cons_self p ps, hne, hvalid⟩
          · obtain ⟨hside, hne, hvalid⟩ := hd o hmem e he
            exact ⟨List.mem_cons_of_mem p hside, hne, hvalid⟩

/-- Claim C1: for a tournament whose cached status exists and whose rounds'
scored/unscored buckets are sorted ascending by `(handNo, tableNo)`, a
successful `recordScore` applies the unscored-to-scored move and a successful
`clearScore` the scored-to-unscored move to every round; the updated buckets
stay sorted, and only the matching `HandIdentifier` changes buckets, with no
other entry added, removed or duplicated. -/
theorem hand_status_buckets_sorted_transition (st : ServiceState)
    (tid : String) (nsPair ewPair handNo : ℤ) (score : HandScore)
    (status : TournamentStatus)
    (hstat : lookupStatus st.tournamentStatuses tid = some status)
    (hsorted : ∀ r ∈ status.roundStatus,
      SortedHands r.scoredHands ∧ SortedHands r.unscoredHands) :
    lookupStatus (recordScore st tid nsPair ewPair handNo score .success).1.tournamentStatuses tid
      = some ⟨status.roundStatus.map (updateRoundScored handNo nsPair ewPair)⟩ ∧
    lookupStatus (clearScore st tid nsPair ewPair handNo .success).1.tournamentStatuses tid
      = some ⟨status.roundStatus.map (updateRoundUnscored handNo nsPair ewPair)⟩ ∧
    (∀ r ∈ status.roundStatus,
      SortedHands (updateRoundScored handNo nsPair ewPair r).scoredHands ∧
      SortedHands (updateRoundScored handNo nsPair ewPair r).unscoredHands ∧
      movesBetween handNo nsPair ewPair r.unscoredHands r.scoredHands
        (updateRoundScored handNo nsPair ewPair r).unscoredHands
        (updateRoundScored handNo nsPair ewPair r).scoredHands) ∧
    (∀ r ∈ status.roundStatus,
      SortedHands (updateRoundUnscored handNo nsPair ewPair r).scoredHands ∧
      SortedHands (updateRoundUnscored handNo nsPair ewPair r).unscoredHands ∧
      movesBetween handNo nsPair ewPair r.scoredHands r.unscoredHands
        (updateRoundUnscored handNo nsPair ewPair r).scoredHands
        (updateRoundUnscored handNo nsPair ewPair r).unscoredHands) := by
  refine ⟨?_, ?_, ?_, ?_⟩
  · exact lookupStatus_updateTournamentStatus st.tournamentStatuses tid handNo nsPair ewPair status hstat
  · exact lookupStatus_updateTournamentStatusCleared st.tournamentStatuses tid handNo nsPair ewPair status hstat
  · intro r hr
    obtain ⟨hsc, hun⟩ := hsorted r hr
    exact ⟨changeHandStatus_sorted_snd handNo nsPair ewPair r.unscoredHands r.scoredHands hsc,
           changeHandStatus_sorted_fst handNo nsPair ewPair r.unscoredHands r.scoredHands hun,
           changeHandStatus_moves handNo nsPair ewPair r.unscoredHands r.scoredHands hun⟩
  · intro r hr
    obtain ⟨hsc, hun⟩ := hsorted r hr
    exact ⟨changeHandStatus_sorted_fst handNo nsPair ewPair r.scoredHands r.unscoredHands hsc,
           changeHandStatus_sorted_snd handNo nsPair ewPair r.scoredHands r.unscoredHands hun,
           changeHandStatus_moves handNo nsPair ewPair r.scoredHands r.unscoredHands hsc⟩

/-- Witness for C1 at the sample state: hand 2 of pairs (3, 4) moves. -/
theorem hand_status_buckets_sorted_transition_witness :
    (lookupStatus sampleState.tournamentStatuses "t" = some sampleStatus ∧
     ∀ r ∈ sampleStatus.roundStatus,
       SortedHands r.scoredHands ∧ SortedHands r.unscoredHands) ∧
    (lookupStatus (recordScore sampleState "t" 3 4 2 sampleScore .success).1.tournamentStatuses "t"
        = some ⟨sampleStatus.roundStatus.map (updateRoundScored 2 3 4)⟩ ∧
     lookupStatus (clearScore sampleState "t" 3 4 2 .success).1.tournamentStatuses "t"
        = some ⟨sampleStatus.roundStatus.map (updateRoundUnscored 2 3 4)⟩ ∧
     (∀ r ∈ sampleStatus.roundStatus,
       SortedHands (updateRoundScored 2 3 4 r).scoredHands ∧
       SortedHands (updateRoundScored 2 3 4 r).unscoredHands ∧
       movesBetween 2 3 4 r.unscoredHands r.scoredHands
         (updateRoundScored 2 3 4 r).unscoredHands
         (updateRoundScored 2 3 4 r).scoredHands) ∧
     (∀ r ∈ sampleStatus.roundStatus,
       SortedHands (updateRoundUnscored 2 3 4 r).scoredHands ∧
       SortedHands (updateRoundUnscored 2 3 4 r).unscoredHands ∧
       movesBetween 2 3 4 r.scoredHands r.unscoredHands
         (updateRoundUnscored 2 3 4 r).scoredHands
         (updateRoundUnscored 2 3 4 r).unscoredHands)) :=
  ⟨⟨by decide, by decide⟩,
   hand_status_buckets_sorted_transition sampleState "t" 3 4 2 sampleScore
     sampleStatus (by decide) (by decide)⟩

/-- Claim C2: a `recordScore` whose HTTP request fails with any status other
than 405 leaves the whole service state — the movement store and the cached
tournament status — unchanged, and its promise rejects through
`ServiceHelpers.handleErrorIn`. -/
theorem recordScore_non405_failure_is_pure_rejection (st : ServiceState)
    (tid : String) (nsPair ewPair handNo : ℤ) (score : HandScore)
    (status : ℕ) (data : Option Json) (hne : status ≠ 405) :
    recordScore st tid nsPair ewPair handNo score (.failure status data)
      = (st, .rejected (handleErrorIn status data)) := by
  unfold recordScore
  simp [hne]

/-- Witness for C2 at the sample state with a 500 response. -/
theorem recordScore_non405_failure_witness :
    (500 : ℕ) ≠ 405 ∧
    recordScore sampleState "t" 1 2 3 sampleScore (.failure 500 none)
      = (sampleState, .rejected (handleErrorIn 500 none)) :=
  ⟨by decide,
   recordScore_non405_failure_is_pure_rejection sampleState "t" 1 2 3 sampleScore
     500 none (by decide)⟩

/-- Claim C3: a `recordScore` whose HTTP request fails with status 405
replaces the cached hand's score for the key with the `HandScore` parsed from
the error response body, applies the scored/unscored bucket update for that
hand to the cached tournament status, and rejects with an `RpcError` whose
`updatedState` field is true. -/
theorem recordScore_405_failure_syncs_state (st : ServiceState) (tid : String)
    (nsPair ewPair handNo : ℤ) (score : HandScore) (data : Option Json)
    (parsed : Option HandScore)
    (hparse : parseHandScore "hand score rejection" data = .ok parsed) :
    (recordScore st tid nsPair ewPair handNo score (.failure 405 data)).2
      = .rejected { updatedState := true, redirectToLogin := false,
                    error := none, detail := none } ∧
    (∃ h, lookupHand (recordScore st tid nsPair ewPair handNo score (.failure 405 data)).1.hands
        ⟨tid, nsPair, ewPair, handNo⟩ = some h ∧ h.score = parsed) ∧
    (recordScore st tid nsPair ewPair handNo score (.failure 405 data)).1.tournamentStatuses
      = updateTournamentStatus st.tournamentStatuses tid handNo nsPair ewPair ∧
    (∀ status, lookupStatus st.tournamentStatuses tid = some status →
      lookupStatus (recordScore st tid nsPair ewPair handNo score (.failure 405 data)).1.tournamentStatuses tid
        = some ⟨status.roundStatus.map (updateRoundScored handNo nsPair ewPair)⟩) := by
  unfold recordScore
  simp only [hparse, if_pos rfl]
  refine ⟨rfl, ?_, rfl, ?_⟩
  · exact lookupHand_set st.hands ⟨tid, nsPair, ewPair, handNo⟩ parsed
  · intro status hstat
    exact lookupStatus_updateTournamentStatus st.tournamentStatuses tid handNo nsPair ewPair status hstat

/-- Witness for C3 at the sample state with a parseable 405 body. -/
theorem recordScore_405_failure_witness :
    parseHandScore "hand score rejection" (some sampleErrorBody)
      = .ok (some sampleServerScore) ∧
    ((recordScore sampleState "t" 3 4 2 sampleScore (.failure 405 (some sampleErrorBody))).2
      = .rejected { updatedState := true, redirectToLogin := false,
                    error := none, detail := none } ∧
    (∃ h, lookupHand (recordScore sampleState "t" 3 4 2 sampleScore (.failure 405 (some sampleErrorBody))).1.hands
        ⟨"t", 3, 4, 2⟩ = some h ∧ h.score = some sampleServerScore) ∧
    (recordScore sampleState "t" 3 4 2 sampleScore (.failure 405 (some sampleErrorBody))).1.tournamentStatuses
      = updateTournamentStatus sampleState.tournamentStatuses "t" 2 3 4 ∧
    (∀ status, lookupStatus sampleState.tournamentStatuses "t" = some status →
      lookupStatus (recordScore sampleState "t" 3 4 2 sampleScore (.failure 405 (some sampleErrorBody))).1.tournamentStatuses "t"
        = some ⟨status.roundStatus.map (updateRoundScored 2 3 4)⟩)) :=
  ⟨by rfl,
   recordScore_405_failure_syncs_state sampleState "t" 3 4 2 sampleScore
     (some sampleErrorBody) (some sampleServerScore) (by rfl)⟩

/-- Claim C4: after a successful `recordScore` the hand stored in the
movement store under `(tournamentId, nsPair, ewPair, handNo)` holds exactly
the submitted score, so an immediately following read of that hand returns
the identical calls, north-south score, east-west score and notes. -/
theorem recordScore_success_roundtrip (st : ServiceState) (tid : String)
    (nsPair ewPair handNo : ℤ) (score : HandScore) :
    (recordScore st tid nsPair ewPair handNo score .success).2 = .resolved ∧
    ∃ h, lookupHand (recordScore st tid nsPair ewPair handNo score .success).1.hands
        ⟨tid, nsPair, ewPair, handNo⟩ = some h ∧ h.score = some score := by
  refine ⟨rfl, ?_⟩
  exact lookupHand_set st.hands ⟨tid, nsPair, ewPair, handNo⟩ (some score)

/-- Claim C5: after a successful `clearScore` the cached hand for the key
has a `null` score, and when a tournament status is cached (scored buckets
sorted), the matching `HandIdentifier` moves from the scored to the unscored
bucket in every round that contains it. -/
theorem clearScore_success_clears_and_moves (st : ServiceState) (tid : String)
    (nsPair ewPair handNo : ℤ) (status : TournamentStatus)
    (hstat : lookupStatus st.tournamentStatuses tid = some status)
    (hsorted : ∀ r ∈ status.roundStatus, SortedHands r.scoredHands) :
    (clearScore st tid nsPair ewPair handNo .success).2 = .resolved ∧
    (∃ h, lookupHand (clearScore st tid nsPair ewPair handNo .success).1.hands
        ⟨tid, nsPair, ewPair, handNo⟩ = some h ∧ h.score = none) ∧
    lookupStatus (clearScore st tid nsPair ewPair handNo .success).1.tournamentStatuses tid
      = some ⟨status.roundStatus.map (updateRoundUnscored handNo nsPair ewPair)⟩ ∧
    ∀ r ∈ status.roundStatus,
      movesBetween handNo nsPair ewPair r.scoredHands r.unscoredHands
        (updateRoundUnscored handNo nsPair ewPair r).scoredHands
        (updateRoundUnscored handNo nsPair ewPair r).unscoredHands := by
  refine ⟨rfl, ?_, ?_, ?_⟩
  · exact lookupHand_set st.hands ⟨tid, nsPair, ewPair, handNo⟩ none
  · exact lookupStatus_updateTournamentStatusCleared st.tournamentStatuses tid handNo nsPair ewPair status hstat
  · intro r hr
    exact changeHandStatus_moves handNo nsPair ewPair r.scoredHands r.unscoredHands (hsorted r hr)

/-- Witness for C5 at the sample state: scored hand 1 of pairs (1, 2). -/
theorem clearScore_success_witness :
    (lookupStatus sampleState.tournamentStatuses "t" = some sampleStatus ∧
     ∀ r ∈ sampleStatus.roundStatus, SortedHands r.scoredHands) ∧
    ((clearScore sampleState "t" 1 2 1 .success).2 = .resolved ∧
    (∃ h, lookupHand (clearScore sampleState "t" 1 2 1 .success).1.hands
        ⟨"t", 1, 2, 1⟩ = some h ∧ h.score = none) ∧
    lookupStatus (clearScore sampleState "t" 1 2 1 .success).1.tournamentStatuses "t"
      = some ⟨sampleStatus.roundStatus.map (updateRoundUnscored 1 1 2)⟩ ∧
    ∀ r ∈ sampleStatus.roundStatus,
      movesBetween 1 1 2 r.scoredHands r.unscoredHands
        (updateRoundUnscored 1 1 2 r).scoredHands
        (updateRoundUnscored 1 1 2 r).unscoredHands) :=
  ⟨⟨by decide, by decide⟩,
   clearScore_success_clears_and_moves sampleState "t" 1 2 1 sampleStatus
     (by decide) (by decide)⟩

/-- Claim C6: with no usable movement-store entry (refresh requested or no
cached movement), `getMovement` returns the already-pending promise for the
cache key without issuing a new request; and a newly issued request registers
itself under the key and has its cache entry removed when it settles,
whichever way it settles. -/
theorem getMovement_single_flight (st : ServiceState) (tid : String)
    (pairNo : ℤ) (pairCode : Option String) (refresh : Bool)
    (hmiss : refresh = true ∨ lookupMovement st.movements ⟨tid, pairNo⟩ = none) :
    (∀ promiseId,
      lookupPromise st.movementPromiseCache (movementPromiseCacheKey tid pairNo pairCode)
        = some promiseId →
      getMovement st tid pairNo pairCode refresh = (st, .existingPromise promiseId)) ∧
    (lookupPromise st.movementPromiseCache (movementPromiseCacheKey tid pairNo pairCode)
        = none →
      getMovement st tid pairNo pairCode refresh
        = ({ st with
              movementPromiseCache :=
                (movementPromiseCacheKey tid pairNo pairCode, st.nextPromiseId)
                  :: st.movementPromiseCache,
              nextPromiseId := st.nextPromiseId + 1 },
           .newRequest st.nextPromiseId) ∧
      ∀ outcome : SettleOutcome,
        lookupPromise
          (movementRequestSettled (getMovement st tid pairNo pairCode refresh).1
            tid pairNo pairCode outcome).movementPromiseCache
          (movementPromiseCacheKey tid pairNo pairCode) = none) := by
  have hreq : getMovement st tid pairNo pairCode refresh
      = getMovementRequest st tid pairNo pairCode := by
    unfold getMovement
    rcases hmiss with hR | hM
    · rw [hR]; rfl
    · cases hrefresh : refresh
      · simp only [Bool.not_false, if_true, hM]
      · rfl
  rw [hreq]
  constructor
  · intro promiseId hP
    unfold getMovementRequest
    simp only [hP]
  · intro hP
    unfold getMovementRequest
    simp only [hP]
    refine ⟨by trivial, ?_⟩
    intro outcome
    unfold movementRequestSettled
    simp only []
    rw [List.eraseP_cons_of_pos (by simp)]
    exact hP

/-- Witness for C6 at the sample state (empty caches). -/
theorem getMovement_single_flight_witness :
    (false = true ∨ lookupMovement sampleState.movements ⟨"t", 7⟩ = none) ∧
    ((∀ promiseId,
      lookupPromise sampleState.movementPromiseCache (movementPromiseCacheKey "t" 7 none)
        = some promiseId →
      getMovement sampleState "t" 7 none false = (sampleState, .existingPromise promiseId)) ∧
    (lookupPromise sampleState.movementPromiseCache (movementPromiseCacheKey "t" 7 none)
        = none →
      getMovement sampleState "t" 7 none false
        = ({ sampleState with
              movementPromiseCache :=
                (movementPromiseCacheKey "t" 7 none, sampleState.nextPromiseId)
                  :: sampleState.movementPromiseCache,
              nextPromiseId := sampleState.nextPromiseId + 1 },
           .newRequest sampleState.nextPromiseId) ∧
      ∀ outcome : SettleOutcome,
        lookupPromise
          (movementRequestSettled (getMovement sampleState "t" 7 none false).1
            "t" 7 none outcome).movementPromiseCache
          (movementPromiseCacheKey "t" 7 none) = none)) :=
  ⟨Or.inr rfl, getMovement_single_flight sampleState "t" 7 none false (Or.inr rfl)⟩

/-- Claim C7: a movement-round object whose `opponent` is `null` or absent
parses to a sit-out round (`isSitOut = true`) in which only the round number
is populated — opponent, position, table, hands and relay flag stay unset;
any round returned for an object with `opponent` present carries
`isSitOut = false`. -/
theorem parseMovementRound_sitout_tagged (hands : List (HandKey × Hand))
    (tid : String) (pair : TournamentPair) (data : Json) (i : ℕ)
    (store' : List (HandKey × Hand)) (r : MovementRound)
    (h : parseMovementRound hands tid pair data i = .ok (store', r)) :
    ((jsonGet data "opponent" = none ∨ jsonGet data "opponent" = some Json.null) →
      r.isSitOut = some true ∧ (∃ n, r.roundNo = some n) ∧ r.opponent = none ∧
      r.position = none ∧ r.table = none ∧ r.hands = none ∧
      r.isRelayTable = none) ∧
    (∀ j, jsonGet data "opponent" = some j → j ≠ Json.null →
      r.isSitOut = some false) := by
  constructor
  · intro hop
    have habs : isOpponentAbsent (jsonGet data "opponent") = true := by
      rcases hop with hop | hop <;> rw [hop] <;> rfl
    unfold parseMovementRound at h
    simp only [habs, if_true, Bind.bind, Except.bind, pure, Except.pure] at h
    split at h
    · simp at h
    · split at h
      · simp at h
      · simp only [Except.ok.injEq, Prod.mk.injEq] at h
        rw [← h.2]
        exact ⟨rfl, ⟨_, rfl⟩, rfl, rfl, rfl, rfl, rfl⟩
  · intro j hop hnull
    have habs : isOpponentAbsent (jsonGet data "opponent") = false := by
      rw [hop]; cases j <;> first | rfl | exact absurd rfl hnull
    unfold parseMovementRound at h
    simp only [habs, Bool.false_eq_true, if_false, Bind.bind, Except.bind, pure,
      Except.pure, isValidPairPositionOpt, Bool.not_false, if_true] at h
    split at h
    · simp at h
    · split at h
      · simp at h
      · split at h
        · simp at h
        · split at h
          · simp at h
          · split at h
            · simp at h
            · split at h
              · simp at h
              · split at h
                · simp at h
                · simp at h

/-- Claim C8 (failing evaluation): on a well-formed seated round — opponent
a positive integer, position `"3N"` of length two ending in the valid side
`N` — `_parseMovementRound` nevertheless throws `"position didn't end in a
valid side"`: its guard consults the never-assigned `round.side` instead of
the just-computed `round.position`, so every seated round is rejected. -/
theorem parseMovementRound_seated_always_throws :
    ("3N".length ≥ 2 ∧ isValidPairPositionOpt (some ("3N".takeRight 1)) = true) ∧
    parseMovementRound [] "t" (samplePair 1) sampleSeatedRound 0
      = .error "movement round[0] position didn't end in a valid side" := by
  exact ⟨⟨by decide, by rfl⟩, by rfl⟩

/-- Claim C9: a change-log entry accepted by `_parseChange` has a `null`
change exactly when the entry's change object carries strictly `null`
`ns_score` and `ew_score` fields (a deletion event); otherwise the change is
the parsed, non-null `HandScore`. -/
theorem parseChange_deletion_iff (data : Json) (c : Change)
    (h : parseChange data = .ok c) (fields : List (String × Json))
    (hchange : jsonGet data "change" = some (Json.obj fields)) :
    c.change = none ↔
      (jsonGet (Json.obj fields) "ns_score" = some Json.null ∧
       jsonGet (Json.obj fields) "ew_score" = some Json.null) := by
  unfold parseChange at h
  simp only [Bind.bind, Except.bind, pure, Except.pure] at h
  split at h
  · simp at h
  · split at h
    · simp at h
    · split at h
      · simp at h
      · rename_i changeFields hObj
        have hfields : changeFields = fields := by
          have := asObject_ok_imp "change log change" (jsonGet data "change")
            changeFields hObj
          rw [hchange] at this
          exact (Json.obj.injEq .. ▸ (Option.some.inj this)).symm
        subst hfields
        split at h
        · rename_i hcond
          rw [Bool.and_eq_true, isNullField_iff, isNullField_iff] at hcond
          simp only [Except.ok.injEq] at h
          rw [← h]
          simpa using hcond
        · rename_i hcond
          rw [Bool.and_eq_true] at hcond
          split at h
          · simp at h
          · rename_i chScore hScore
            obtain ⟨s, hs⟩ := parseHandScore_obj_isSome
              "change log change" changeFields chScore hScore
            simp only [Except.ok.injEq] at h
            rw [← h]
            subst hs
            constructor
            · intro hfalse; exact absurd hfalse (by simp)
            · intro hboth
              exact absurd (by rw [isNullField_iff, isNullField_iff]; exact hboth)
                hcond

/-- Claim C10: `_parseHandScore` maps `null`/`undefined` score data to
`null` rather than throwing (the unscored-hand representation), and a parsed
score object's `calls` list holds exactly one entry per seat whose entry is
a present, non-empty, valid call string — seats whose entries are absent,
`null` or the empty string are omitted. -/
theorem parseHandScore_unset_and_call_filter (ctx : String) :
    parseHandScore ctx none = .ok none ∧
    parseHandScore ctx (some Json.null) = .ok none ∧
    ∀ (d : Json) (s : HandScore), parseHandScore ctx (some d) = .ok (some s) →
      s.calls = tichuPositions.filterMap (callEntryOf d) ∧
      ∀ e ∈ s.calls, e.side ∈ tichuPositions ∧ e.call ≠ "" ∧
        isValidCall e.call = true := by
  refine ⟨rfl, rfl, ?_⟩
  intro d s h
  cases d with
  | null =>
      rw [show parseHandScore ctx (some Json.null) = Except.ok none from rfl] at h
      simp at h
  | bool b =>
      rw [show parseHandScore ctx (some (Json.bool b))
        = Except.error ((ctx ++ " score") ++ " was not a " ++ "object") from rfl] at h
      simp at h
  | num n =>
      rw [show parseHandScore ctx (some (Json.num n))
        = Except.error ((ctx ++ " score") ++ " was not a " ++ "object") from rfl] at h
      simp at h
  | str msg =>
      rw [show parseHandScore ctx (some (Json.str msg))
        = Except.error ((ctx ++ " score") ++ " was not a " ++ "object") from rfl] at h
      simp at h
  | arr elems =>
      rw [show parseHandScore ctx (some (Json.arr elems))
        = Except.error ((ctx ++ " score") ++ " was not a " ++ "object") from rfl] at h
      simp at h
  | obj fields =>
      unfold parseHandScore at h
      rw [show assertType (ctx ++ " score") (some (Json.obj fields)) "object" true
        = .ok (some (Json.obj fields)) from rfl] at h
      simp only [Bind.bind, Except.bind, pure, Except.pure] at h
      split at h
      · simp at h
      · rename_i score hScore
        simp only [Except.ok.injEq, Option.some.injEq] at h
        subst h
        unfold parseHandScoreObj at hScore
        simp only [Bind.bind, Except.bind, pure, Except.pure] at hScore
        split at hScore
        · simp at hScore
        · rename_i callData? hCD
          rcases assertType_opt_cases _ _ _ _ hCD with ⟨hnone, hv⟩ | ⟨cd, hcd, hsome⟩
          · subst hnone
            split at hScore
            · rename_i callData heq
              exact absurd heq (by simp)
            · split at hScore
              · simp at hScore
              · rename_i ns hns
                split at hScore
                · simp at hScore
                · rename_i ew hew
                  split at hScore
                  · simp at hScore
                  · rename_i notes? hnotes
                    simp only [Except.ok.injEq] at hScore
                    subst hScore
                    constructor
                    · rcases hv with hv | hv <;>
                        simp [callEntryOf, callEntryAt, hv, tichuPositions,
                          show ∀ p : String, jsonGet Json.null p = none from fun p => rfl]
                    · intro e he
                      simp at he
          · subst hsome
            split at hScore
            · rename_i callData heq
              have hcd2 : cd = callData := Option.some.inj heq
              subst hcd2
              split at hScore
              · simp at hScore
              · rename_i entries hentries
                split at hScore
                · simp at hScore
                · rename_i ns hns
                  split at hScore
                  · simp at hScore
                  · rename_i ew hew
                    split at hScore
                    · simp at hScore
                    · rename_i notes? hnotes
                      simp only [Except.ok.injEq] at hScore
                      subst hScore
                      obtain ⟨hmap, hprop⟩ :=
                        mapM_parseCallForPosition ctx cd tichuPositions entries hentries
                      constructor
                      · show List.filterMap id entries = _
                        rw [hmap, List.filterMap_map]
                        have hfun : (id ∘ callEntryAt cd)
                            = callEntryOf (Json.obj fields) :=
                          funext fun p => by
                            simp [callEntryOf, hcd, Function.comp]
                        rw [hfun]
                      · intro e he
                        obtain ⟨o, ho, hid⟩ := List.mem_filterMap.mp he
                        exact hprop o ho e hid
            · rename_i heq
              exact absurd heq (by simp)

/-- Witness for C7 at the concrete sit-out round. -/
theorem parseMovementRound_sitout_witness :
    parseMovementRound [] "t" (samplePair 1) sampleSitOutRound 0
      = .ok ([], sampleSitOutParsed) ∧
    (((jsonGet sampleSitOutRound "opponent" = none ∨
       jsonGet sampleSitOutRound "opponent" = some Json.null) →
      sampleSitOutParsed.isSitOut = some true ∧
      (∃ n, sampleSitOutParsed.roundNo = some n) ∧
      sampleSitOutParsed.opponent = none ∧ sampleSitOutParsed.position = none ∧
      sampleSitOutParsed.table = none ∧ sampleSitOutParsed.hands = none ∧
      sampleSitOutParsed.isRelayTable = none) ∧
    (∀ j, jsonGet sampleSitOutRound "opponent" = some j → j ≠ Json.null →
      sampleSitOutParsed.isSitOut = some false)) :=
  ⟨by rfl,
   parseMovementRound_sitout_tagged [] "t" (samplePair 1) sampleSitOutRound 0
     [] sampleSitOutParsed (by rfl)⟩

/-- Witness for C9 at the concrete deletion entry. -/
theorem parseChange_deletion_iff_witness :
    (parseChange sampleDeletionEntry = .ok sampleDeletionChange ∧
     jsonGet sampleDeletionEntry "change" = some (Json.obj sampleDeletionFields)) ∧
    (sampleDeletionChange.change = none ↔
      (jsonGet (Json.obj sampleDeletionFields) "ns_score" = some Json.null ∧
       jsonGet (Json.obj sampleDeletionFields) "ew_score" = some Json.null)) :=
  ⟨⟨by rfl, by rfl⟩,
   parseChange_deletion_iff sampleDeletionEntry sampleDeletionChange (by rfl)
     sampleDeletionFields (by rfl)⟩

/-- Witness for C10 at the concrete score body. -/
theorem parseHandScore_unset_and_call_filter_witness :
    parseHandScore "hand" (some sampleScoreBody) = .ok (some sampleParsedScore) ∧
    (sampleParsedScore.calls = tichuPositions.filterMap (callEntryOf sampleScoreBody) ∧
     ∀ e ∈ sampleParsedScore.calls, e.side ∈ tichuPositions ∧ e.call ≠ "" ∧
       isValidCall e.call = true) :=
  ⟨by rfl,
   (parseHandScore_unset_and_call_filter "hand").2.2 sampleScoreBody
     sampleParsedScore (by rfl)⟩
